import Mathlib

/-! The class hz::ErrorHolder (src/hz/error_holder.h).

A shallow embedding of the error accumulation class `hz::ErrorHolder` and of
its default diagnostic dispatcher `error_warn`, followed by theorems about
the store (`push_error`, `has_errors`, `get_errors`, `clear_errors`) and about
the text and channel the dispatcher selects.

Heap objects created by `std::make_shared` carry an allocation identity
(a counter that only grows), so that "the stored copy" and "some object that
existed before the call" can be told apart even when their contents agree.
A second layer adds the use counts of `std::shared_ptr`, to follow the
lifetime of the stored objects across `get_errors` and `clear_errors`.
Two more layers make explicit what the template and the missing handlers
leave to the caller: the static type at which `push_error` copies, and
exceptions thrown by the copy constructor or the dispatcher.

The version check `APP_GTKMM_CHECK_VERSION` of applib/app_gtkmm_features.h is
embedded as well.
-/

namespace hz

universe u

/-! ## Collaborators declared in error.h and debug.h -/

/-- Modelled from the spec: error.h is not part of the excerpt. The severity
enumeration `ErrorLevel`, with the six enumerators that the `switch` in
`ErrorHolder::error_warn` names, in the order the spec gives them. -/
inductive ErrorLevel where
  | none
  | dump
  | info
  | warn
  | error
  | fatal
deriving DecidableEq

/-- Modelled from the spec: error.h is not part of the excerpt. The error
capability `ErrorBase`: a concrete error kind `E` derives from `ErrorBase` when
it offers `get_type()`, `get_message()` and `get_level()`. There are no mutating
operations. -/
class ErrorBase (E : Type) where
  get_type : E → String
  get_message : E → String
  get_level : E → ErrorLevel

/-- An error object together with its concrete (dynamic) kind `E`: what a call
`push_error<E>(e)` receives, and what a heap cell holding an `E` contains. -/
structure AnyError where
  E : Type
  inst : ErrorBase E
  val : E

/-- The call `e.get_type()` through the `ErrorBase` view. -/
def AnyError.get_type (e : AnyError) : String := e.inst.get_type e.val

/-- The call `e.get_message()` through the `ErrorBase` view. -/
def AnyError.get_message (e : AnyError) : String := e.inst.get_message e.val

/-- The call `e.get_level()` through the `ErrorBase` view. -/
def AnyError.get_level (e : AnyError) : ErrorLevel := e.inst.get_level e.val

/-- A `std::shared_ptr<ErrorBase>` (and the raw `ErrorBase*` obtained from it by
`.get()`): the identity `id` of the heap object it points to, and that object.
Error objects are immutable, so the object is carried with the pointer. -/
structure ErrorPtr where
  id : Nat
  obj : AnyError

/-- The call `p->get_type()`. -/
def ErrorPtr.get_type (p : ErrorPtr) : String := p.obj.get_type

/-- The call `p->get_message()`. -/
def ErrorPtr.get_message (p : ErrorPtr) : String := p.obj.get_message

/-- The call `p->get_level()`. -/
def ErrorPtr.get_level (p : ErrorPtr) : ErrorLevel := p.obj.get_level

/-- Modelled from the spec: debug.h is not part of the excerpt. The five output
channels of libdebug that the `debug_out_*` family writes to (verbose,
informational, warning, error, fatal). -/
inductive debug_level where
  | dump
  | info
  | warn
  | error
  | fatal
deriving DecidableEq

/-- One emission of diagnostic text: the channel, the domain string passed as
first argument of `debug_out_*`, and the text streamed as second argument. -/
structure DebugEmission where
  channel : debug_level
  domain : String
  text : String
deriving DecidableEq

/-- The trace of everything emitted so far, oldest first. -/
abbrev DebugOut := List DebugEmission

/-- Modelled from the spec: `debug_out_dump(domain, output)` of debug.h, which
is not part of the excerpt; it delivers `output` to the verbose channel. -/
def debug_out_dump (domain output : String) (out : DebugOut) : DebugOut :=
  out ++ [⟨debug_level.dump, domain, output⟩]

/-- Modelled from the spec: `debug_out_info(domain, output)` of debug.h, which
is not part of the excerpt; it delivers `output` to the informational channel. -/
def debug_out_info (domain output : String) (out : DebugOut) : DebugOut :=
  out ++ [⟨debug_level.info, domain, output⟩]

/-- Modelled from the spec: `debug_out_warn(domain, output)` of debug.h, which
is not part of the excerpt; it delivers `output` to the warning channel. -/
def debug_out_warn (domain output : String) (out : DebugOut) : DebugOut :=
  out ++ [⟨debug_level.warn, domain, output⟩]

/-- Modelled from the spec: `debug_out_error(domain, output)` of debug.h, which
is not part of the excerpt; it delivers `output` to the error channel. -/
def debug_out_error (domain output : String) (out : DebugOut) : DebugOut :=
  out ++ [⟨debug_level.error, domain, output⟩]

/-- Modelled from the spec: `debug_out_fatal(domain, output)` of debug.h, which
is not part of the excerpt; it delivers `output` to the fatal channel and does
not terminate the process. -/
def debug_out_fatal (domain output : String) (out : DebugOut) : DebugOut :=
  out ++ [⟨debug_level.fatal, domain, output⟩]

/-! ## The class ErrorHolder -/

/-- The data members of `class ErrorHolder`: the private `errors_`, a
`std::vector<std::shared_ptr<ErrorBase>>` with the newest errors at the end. -/
structure ErrorHolder where
  errors_ : List ErrorPtr

/-- The defaulted constructor `ErrorHolder() = default`: an empty vector. -/
def ErrorHolder.new : ErrorHolder := ⟨[]⟩

/-- The method `bool has_errors() const { return !errors_.empty(); }`. -/
def ErrorHolder.has_errors (h : ErrorHolder) : Bool := !h.errors_.isEmpty

/-- The method `error_list_t get_errors() const { return errors_; }`. -/
def ErrorHolder.get_errors (h : ErrorHolder) : List ErrorPtr := h.errors_

/-- The method `void clear_errors() { errors_.clear(); }`. -/
def ErrorHolder.clear_errors (_h : ErrorHolder) : ErrorHolder := ⟨[]⟩

/-- Everything a non-const method of the holder can read or change: the
holder itself, the allocation counter of the heap, and the rest of the
environment `σ` (the diagnostic output for the default dispatcher, members of
a derived class for an overriding one). -/
structure World (σ : Type u) where
  holder : ErrorHolder
  next_id : Nat
  env : σ

/-- A world whose holder has just been constructed. -/
def World.fresh {σ : Type u} (next_id : Nat) (env : σ) : World σ :=
  ⟨ErrorHolder.new, next_id, env⟩

/-- The virtual method `void error_warn(ErrorBase* e)`: the default body or an
override in a derived class. -/
abbrev Dispatcher (σ : Type u) := ErrorPtr → World σ → World σ

/-- The expression `std::make_shared<E>(e)`: a new heap object of kind `E`,
copy-constructed from `e`, with an identity no earlier object has. -/
def make_shared {σ : Type u} {E : Type} [inst : ErrorBase E] (e : E) (w : World σ) :
    ErrorPtr × World σ :=
  (⟨w.next_id, ⟨E, inst, e⟩⟩, { w with next_id := w.next_id + 1 })

/-- The method template `push_error<E>(const E& e)`:
`auto cloned = std::make_shared<E>(e); errors_.push_back(cloned);
error_warn(cloned.get());` with `error_warn` dispatched virtually. -/
def push_error {σ : Type u} (error_warn : Dispatcher σ) {E : Type} [ErrorBase E]
    (e : E) (w : World σ) : World σ :=
  let r := make_shared e w
  let cloned := r.1
  let w1 := r.2
  let w2 : World σ := { w1 with holder := ⟨w1.holder.errors_ ++ [cloned]⟩ }
  error_warn cloned w2

/-- The default body of `ErrorHolder::error_warn`: build
`msg = e->get_type() + ": " + e->get_message() + "\n"` and switch on the level. -/
def error_warn (e : ErrorPtr) (w : World DebugOut) : World DebugOut :=
  let msg := e.get_type ++ ": " ++ e.get_message ++ "\n"
  let level := e.get_level
  match level with
  | ErrorLevel.none => w
  | ErrorLevel.dump => { w with env := debug_out_dump "hz" msg w.env }
  | ErrorLevel.info => { w with env := debug_out_info "hz" msg w.env }
  | ErrorLevel.warn => { w with env := debug_out_warn "hz" ("Warning: " ++ msg) w.env }
  | ErrorLevel.error => { w with env := debug_out_error "hz" ("Error: " ++ msg) w.env }
  | ErrorLevel.fatal => { w with env := debug_out_fatal "hz" ("Fatal: " ++ msg) w.env }

/-- The method `clear_errors()` as a step of the world. -/
def clear_errors {σ : Type u} (w : World σ) : World σ :=
  { w with holder := w.holder.clear_errors }

/-- Pushing an error of any kind: `push_error<e.E>(e.val)`. -/
def push_any {σ : Type u} (d : Dispatcher σ) (e : AnyError) (w : World σ) : World σ :=
  @push_error σ d e.E e.inst e.val w

/-- Pushing the errors `es` one after the other, in order. -/
def push_all {σ : Type u} (d : Dispatcher σ) (es : List AnyError) (w : World σ) : World σ :=
  es.foldl (fun acc e => push_any d e acc) w

/-! ## Sequences of calls, and an observer of dispatcher invocations -/

/-- One call of a public method of the holder. -/
inductive Op where
  | push_error (e : AnyError)
  | has_errors
  | get_errors
  | clear_errors

/-- The effect of one call on the world; the two const queries return a value
and change nothing. -/
def Op.step {σ : Type u} (d : Dispatcher σ) : Op → World σ → World σ
  | Op.push_error e, w => push_any d e w
  | Op.has_errors, w => w
  | Op.get_errors, w => w
  | Op.clear_errors, w => hz.clear_errors w

/-- The effect of a sequence of calls, first call first. -/
def run {σ : Type u} (d : Dispatcher σ) (ops : List Op) (w : World σ) : World σ :=
  ops.foldl (fun acc op => op.step d acc) w

/-- The errors pushed by a sequence of calls, in call order. -/
def pushed : List Op → List AnyError
  | [] => []
  | Op.push_error e :: ops => e :: pushed ops
  | Op.has_errors :: ops => pushed ops
  | Op.get_errors :: ops => pushed ops
  | Op.clear_errors :: ops => pushed ops

/-- What an invocation of `error_warn` can observe on entry: its argument, the
result `get_errors()` would give at that moment, and the allocation counter. -/
structure DispatchRecord where
  arg : ErrorPtr
  store : List ErrorPtr
  next_id : Nat

/-- The dispatcher `d` with an observer in front of it: every invocation first
appends a record of what it sees to a log that `d` cannot reach, then runs `d`. -/
def traced {σ : Type u} (d : Dispatcher σ) : Dispatcher (σ × List DispatchRecord) :=
  fun e w =>
    let log := w.env.2 ++ [⟨e, w.holder.get_errors, w.next_id⟩]
    let w1 : World σ := d e (⟨w.holder, w.next_id, w.env.1⟩ : World σ)
    ⟨w1.holder, w1.next_id, (w1.env, log)⟩

/-- The record `r` is an invocation of `error_warn` for the pushed error `e`:
its argument points to a copy of `e` of the same kind, that argument is the
last entry of the store at the moment of the call (the copy has been
appended), and it is the object allocated last (made by this very push, so it
is none of the objects that existed when the push began). -/
def DispatchedFor (r : DispatchRecord) (e : AnyError) : Prop :=
  r.arg.obj = e ∧ r.store.getLast? = some r.arg ∧ r.arg.id + 1 = r.next_id

/-! ## The routing table in the words of the specification -/

/-- The channel the specification assigns to a level: none is suppressed, dump
goes to the verbose channel, info to the informational channel, warn to the
warning channel, error to the error channel, fatal to the fatal channel. -/
def spec_channel : ErrorLevel → Option debug_level
  | ErrorLevel.none => none
  | ErrorLevel.dump => some debug_level.dump
  | ErrorLevel.info => some debug_level.info
  | ErrorLevel.warn => some debug_level.warn
  | ErrorLevel.error => some debug_level.error
  | ErrorLevel.fatal => some debug_level.fatal

/-- The text the specification puts in front of the message for a level:
nothing for dump and info, "Warning: " for warn, "Error: " for error and
"Fatal: " for fatal (none produces no output at all). -/
def spec_level_label : ErrorLevel → String
  | ErrorLevel.none => ""
  | ErrorLevel.dump => ""
  | ErrorLevel.info => ""
  | ErrorLevel.warn => "Warning: "
  | ErrorLevel.error => "Error: "
  | ErrorLevel.fatal => "Fatal: "

/-! ## A concrete error kind for the scenarios -/

/-- A concrete error kind: a plain record of type name, message and level. -/
structure SimpleError where
  type_ : String
  message : String
  level : ErrorLevel
deriving DecidableEq

instance instErrorBaseSimpleError : ErrorBase SimpleError where
  get_type := fun e => e.type_
  get_message := fun e => e.message
  get_level := fun e => e.level

/-- A `SimpleError` packaged with its kind. -/
def SimpleError.any (e : SimpleError) : AnyError := ⟨SimpleError, instErrorBaseSimpleError, e⟩

/-- The error of the first scenario. -/
def deviceError : SimpleError := ⟨"DeviceError", "disk read failed", ErrorLevel.error⟩

/-- An error of level none. -/
def silentError : SimpleError := ⟨"Note", "nothing to report", ErrorLevel.none⟩

/-- The three errors pushed first in the second scenario: levels info, warn, fatal. -/
def scenarioFirst : List AnyError :=
  [SimpleError.any ⟨"A", "first", ErrorLevel.info⟩,
   SimpleError.any ⟨"B", "second", ErrorLevel.warn⟩,
   SimpleError.any ⟨"C", "third", ErrorLevel.fatal⟩]

/-- The error pushed after the reset in the second scenario: level dump. -/
def scenarioLast : SimpleError := ⟨"D", "fourth", ErrorLevel.dump⟩

/-- A second concrete error kind, with a member of its own that the `ErrorBase`
view does not show: an error code. -/
structure CodedError where
  code : Int
  type_ : String
  message : String
  level : ErrorLevel
deriving DecidableEq

instance instErrorBaseCodedError : ErrorBase CodedError where
  get_type := fun e => e.type_
  get_message := fun e => e.message
  get_level := fun e => e.level

/-- A `CodedError` packaged with its kind. -/
def CodedError.any (e : CodedError) : AnyError := ⟨CodedError, instErrorBaseCodedError, e⟩

/-- An error with code 42. -/
def codedError : CodedError := ⟨42, "IoError", "short read", ErrorLevel.warn⟩

/-! ## Calls with their return values -/

/-- What a call of a public method returns: nothing (`void`), the `bool` of
`has_errors()`, or the `error_list_t` that `get_errors()` returns by value. -/
inductive Ret where
  | void
  | bool (b : Bool)
  | list (l : List ErrorPtr)

/-- One call of a public method: the world after it and the value returned. -/
def Op.call {σ : Type u} (d : Dispatcher σ) : Op → World σ → World σ × Ret
  | Op.push_error e, w => (push_any d e w, Ret.void)
  | Op.has_errors, w => (w, Ret.bool w.holder.has_errors)
  | Op.get_errors, w => (w, Ret.list w.holder.get_errors)
  | Op.clear_errors, w => (hz.clear_errors w, Ret.void)

/-- The two const queries. -/
inductive Query where
  | has_errors
  | get_errors

/-- A query as a call. -/
def Query.toOp : Query → Op
  | Query.has_errors => Op.has_errors
  | Query.get_errors => Op.get_errors

/-! ## Overrides of error_warn in derived classes -/

/-- An override whose body is `clear_errors();`: the method is a non-const
member, and `clear_errors` is public. -/
def clearing_dispatcher : Dispatcher Unit :=
  fun _ w => clear_errors w

/-- An override that counts its invocations in a member of the derived class
and does nothing else. -/
def counting_dispatcher : Dispatcher Nat :=
  fun _ w => { w with env := w.env + 1 }

/-! ## Shared ownership of the stored objects -/

/-- The heap object behind a `std::shared_ptr`: the error object, and the use
count kept in its control block. -/
structure Cell where
  obj : AnyError
  use_count : Nat

/-- The heap objects by identity; `none` where no object exists (never made, or
destroyed). -/
abbrev Heap := Nat → Option Cell

/-- A heap without objects. -/
def Heap.empty : Heap := fun _ => none

/-- The allocation done by `std::make_shared`: a new object with one owner. -/
def Heap.alloc (h : Heap) (id : Nat) (obj : AnyError) : Heap :=
  fun i => if i = id then some ⟨obj, 1⟩ else h i

/-- Copying a `shared_ptr` to the object `id`: one more owner. -/
def Heap.retain (h : Heap) (id : Nat) : Heap :=
  fun i => if i = id then (h i).map (fun c => ⟨c.obj, c.use_count + 1⟩) else h i

/-- Destroying a `shared_ptr` to the object `id`: one owner less, and the
object is destroyed with its last owner. -/
def Heap.release (h : Heap) (id : Nat) : Heap :=
  fun i =>
    if i = id then
      match h i with
      | some c => if c.use_count ≤ 1 then none else some ⟨c.obj, c.use_count - 1⟩
      | none => none
    else h i

/-- Dereferencing a handle: the object it points to, if that object exists. -/
def Heap.deref (h : Heap) (p : ErrorPtr) : Option AnyError :=
  (h p.id).map Cell.obj

/-- The world of the default holder together with the heap of error objects. -/
structure RcWorld where
  base : World DebugOut
  heap : Heap

/-- A freshly constructed holder and an empty heap. -/
def RcWorld.fresh (next_id : Nat) (out : DebugOut) : RcWorld :=
  ⟨World.fresh next_id out, Heap.empty⟩

/-- The method `push_error` with ownership: `make_shared` creates the object
with `cloned` as its owner, `push_back(cloned)` copies the pointer into the
vector, `error_warn(cloned.get())` receives a raw pointer, and `cloned` is
destroyed when the method returns. -/
def rc_push_error {E : Type} [ErrorBase E] (e : E) (rw : RcWorld) : RcWorld :=
  let r := make_shared e rw.base
  let cloned := r.1
  let heap1 := rw.heap.alloc cloned.id cloned.obj
  let w2 : World DebugOut := { r.2 with holder := ⟨r.2.holder.errors_ ++ [cloned]⟩ }
  let heap2 := heap1.retain cloned.id
  let w3 := error_warn cloned w2
  let heap3 := heap2.release cloned.id
  ⟨w3, heap3⟩

/-- The method `get_errors` with ownership: `return errors_;` copies the vector,
so every stored pointer is copied into the list handed to the caller. -/
def rc_get_errors (rw : RcWorld) : List ErrorPtr × RcWorld :=
  (rw.base.holder.errors_,
    ⟨rw.base, rw.base.holder.errors_.foldl (fun h p => h.retain p.id) rw.heap⟩)

/-- The method `clear_errors` with ownership: `errors_.clear()` destroys every
pointer stored in the vector. -/
def rc_clear_errors (rw : RcWorld) : RcWorld :=
  ⟨clear_errors rw.base,
    rw.base.holder.errors_.foldl (fun h p => h.release p.id) rw.heap⟩

/-- A call of one of the two methods that change the store. -/
inductive Mutator where
  | push_error (e : AnyError)
  | clear_errors

/-- The effect of a mutating call on world and heap. -/
def Mutator.step : Mutator → RcWorld → RcWorld
  | Mutator.push_error e, rw => @rc_push_error e.E e.inst e.val rw
  | Mutator.clear_errors, rw => rc_clear_errors rw

/-- The effect of a sequence of mutating calls, first call first. -/
def rc_run (ms : List Mutator) (rw : RcWorld) : RcWorld :=
  ms.foldl (fun acc m => m.step acc) rw

/-- The same calls without the heap. -/
def Mutator.toOp : Mutator → Op
  | Mutator.push_error e => Op.push_error e
  | Mutator.clear_errors => Op.clear_errors

/-- The number of pointers to the object `id` in a list of pointers. -/
def owners (id : Nat) (l : List ErrorPtr) : Nat :=
  (l.map ErrorPtr.id).count id

/-- Ownership is accounted for: the pointers in the store and in the list `held`
by a caller all point to objects made before now, each of these objects exists
with the contents the pointer was made for, and its use count covers the
pointers to it in the store and in `held`. -/
def Accounted (held : List ErrorPtr) (rw : RcWorld) : Prop :=
  ∀ p : ErrorPtr, p ∈ rw.base.holder.errors_ ++ held →
    p.id < rw.base.next_id
    ∧ ∃ c : Cell, rw.heap p.id = some c ∧ c.obj = p.obj
        ∧ owners p.id rw.base.holder.errors_ + owners p.id held ≤ c.use_count

/-! ## The static type at the call site -/

/-- The kind `K` is the kind `J` or is derived from it: `base` gives the `J`
subobject of a `K` object. This is what the copy constructor of `J` copies
when it is handed a `const J&` that refers to a `K`. -/
structure Upcast (K J : Type) where
  base : K → J

/-- Every kind is a kind of itself; the subobject is the whole object. -/
def Upcast.self (K : Type) : Upcast K K := ⟨id⟩

/-- The call `push_error(e)` where the expression `e` has static type `J` and
refers to an object `k` whose own kind is `K`: the template argument `E` is
deduced from the static type, so the body runs `std::make_shared<J>(e)`, which
copy-constructs a `J` from the `J` subobject of `k`. -/
def push_error_via {σ : Type u} (d : Dispatcher σ) {K J : Type} [ErrorBase J]
    (up : Upcast K J) (k : K) (w : World σ) : World σ :=
  push_error d (up.base k) w

/-- A kind derived from `SimpleError` (`class DerivedError : public SimpleError`)
with a member of its own; the three accessors are inherited. -/
structure DerivedError extends SimpleError where
  code : Int
deriving DecidableEq

instance instErrorBaseDerivedError : ErrorBase DerivedError where
  get_type := fun e => e.type_
  get_message := fun e => e.message
  get_level := fun e => e.level

/-- A `DerivedError` seen as its base `SimpleError`. -/
def DerivedError.up : Upcast DerivedError SimpleError := ⟨DerivedError.toSimpleError⟩

/-- A derived error with code 42. -/
def derivedError42 : DerivedError := ⟨⟨"IoError", "short read", ErrorLevel.warn⟩, 42⟩

/-- The same derived error with code 7. -/
def derivedError7 : DerivedError := ⟨⟨"IoError", "short read", ErrorLevel.warn⟩, 7⟩

/-! ## Exceptions thrown by the code that push_error calls -/

end hz

/-! ## applib: app_gtkmm_features.h -/

/-- The function-like macro `APP_GTKMM_CHECK_VERSION(major, minor, micro)`. The
three constants `GTKMM_MAJOR_VERSION`, `GTKMM_MINOR_VERSION` and
`GTKMM_MICRO_VERSION` come from the gtkmm headers, which are not part of the
excerpt, and are parameters here. -/
def APP_GTKMM_CHECK_VERSION
    (GTKMM_MAJOR_VERSION GTKMM_MINOR_VERSION GTKMM_MICRO_VERSION : Int)
    (major minor micro : Int) : Bool :=
  (decide (GTKMM_MAJOR_VERSION > major)
    || (decide (GTKMM_MAJOR_VERSION = major) && (decide (GTKMM_MINOR_VERSION > minor)
      || (decide (GTKMM_MINOR_VERSION = minor) && decide (GTKMM_MICRO_VERSION ≥ micro))
      )
    )
  )

namespace hz

/-! ## Helper lemmas -/

theorem error_warn_holder (e : ErrorPtr) (w : World DebugOut) :
    (error_warn e w).holder = w.holder := by
  unfold error_warn
  cases h : e.get_level <;> simp [h]

theorem error_warn_next_id (e : ErrorPtr) (w : World DebugOut) :
    (error_warn e w).next_id = w.next_id := by
  unfold error_warn
  cases h : e.get_level <;> simp [h]

theorem push_any_errors (e : AnyError) (w : World DebugOut) :
    (push_any error_warn e w).holder.errors_ = w.holder.errors_ ++ [⟨w.next_id, e⟩] := by
  simp [push_any, push_error, make_shared, error_warn_holder]

theorem push_any_next_id (e : AnyError) (w : World DebugOut) :
    (push_any error_warn e w).next_id = w.next_id + 1 := by
  simp [push_any, push_error, make_shared, error_warn_next_id]

theorem push_all_errors_obj (es : List AnyError) (w : World DebugOut) :
    (push_all error_warn es w).holder.errors_.map ErrorPtr.obj
      = w.holder.errors_.map ErrorPtr.obj ++ es := by
  induction es generalizing w with
  | nil => simp [push_all]
  | cons e es ih =>
    have h := ih (push_any error_warn e w)
    simp only [push_all, List.foldl_cons] at h ⊢
    rw [h, push_any_errors]
    simp

theorem traced_push_log {σ : Type u} (d : Dispatcher σ) (e : AnyError)
    (w : World (σ × List DispatchRecord)) :
    (push_any (traced d) e w).env.2
      = w.env.2 ++ [⟨⟨w.next_id, e⟩, w.holder.get_errors ++ [⟨w.next_id, e⟩], w.next_id + 1⟩] := by
  rfl

theorem run_traced_log {σ : Type u} (d : Dispatcher σ) (ops : List Op)
    (w : World (σ × List DispatchRecord)) :
    ∃ recs : List DispatchRecord,
      (run (traced d) ops w).env.2 = w.env.2 ++ recs
      ∧ List.Forall₂ DispatchedFor recs (pushed ops) := by
  induction ops generalizing w with
  | nil => exact ⟨[], by simp [run], by simp [pushed]⟩
  | cons op ops ih =>
    obtain ⟨recs, hlog, hall⟩ := ih (op.step (traced d) w)
    cases op with
    | push_error e =>
      refine ⟨(⟨⟨w.next_id, e⟩, w.holder.get_errors ++ [⟨w.next_id, e⟩], w.next_id + 1⟩ :
          DispatchRecord) :: recs, ?_, List.Forall₂.cons ?_ hall⟩
      · simp only [run, List.foldl_cons] at hlog ⊢
        rw [hlog]
        simp only [Op.step, traced_push_log, List.append_assoc, List.singleton_append]
      · simp [DispatchedFor]
    | has_errors => exact ⟨recs, by simpa [run, Op.step] using hlog, by simpa [pushed] using hall⟩
    | get_errors => exact ⟨recs, by simpa [run, Op.step] using hlog, by simpa [pushed] using hall⟩
    | clear_errors =>
      exact ⟨recs, by simpa [run, Op.step, clear_errors] using hlog, by simpa [pushed] using hall⟩

theorem empty_string_append (t : String) : "" ++ t = t := by
  cases t
  rfl

theorem error_warn_env (p : ErrorPtr) (w : World DebugOut) :
    (error_warn p w).env = w.env ++
      (match spec_channel p.get_level with
        | none => []
        | some c => [⟨c, "hz", spec_level_label p.get_level
            ++ (p.get_type ++ ": " ++ p.get_message ++ "\n")⟩]) := by
  unfold error_warn
  cases h : p.get_level <;>
    simp [h, spec_channel, spec_level_label, empty_string_append, debug_out_dump,
      debug_out_info, debug_out_warn, debug_out_error, debug_out_fatal]

/-! ## The store: push_error, has_errors, get_errors, clear_errors -/

/-- C1: pushing the errors `es` (of any kinds and levels) in order with
`push_error` onto a freshly constructed holder makes `get_errors()` return
exactly the copies of `es`, oldest first: the pointed-to objects are `es`, the
length is that of `es`, and at every index the type, the message and the level
are those of the error pushed at that index. -/
theorem C1_get_errors_after_pushes (es : List AnyError) (next_id : Nat) (out : DebugOut) :
    ((push_all error_warn es (World.fresh next_id out)).holder.get_errors).map ErrorPtr.obj = es
    ∧ ((push_all error_warn es (World.fresh next_id out)).holder.get_errors).length = es.length
    ∧ ∀ i : Nat,
        (((push_all error_warn es (World.fresh next_id out)).holder.get_errors)[i]?).map
            ErrorPtr.get_type = (es[i]?).map AnyError.get_type
        ∧ (((push_all error_warn es (World.fresh next_id out)).holder.get_errors)[i]?).map
            ErrorPtr.get_message = (es[i]?).map AnyError.get_message
        ∧ (((push_all error_warn es (World.fresh next_id out)).holder.get_errors)[i]?).map
            ErrorPtr.get_level = (es[i]?).map AnyError.get_level := by
  have h : ((push_all error_warn es (World.fresh next_id out)).holder.get_errors).map
      ErrorPtr.obj = es := by
    have h0 := push_all_errors_obj es (World.fresh next_id out)
    simpa [ErrorHolder.get_errors, World.fresh, ErrorHolder.new] using h0
  refine ⟨h, ?_, ?_⟩
  · have hl := congrArg List.length h
    simpa using hl
  · intro i
    have hi := congrArg (fun l => l[i]?) h
    simp only [List.getElem?_map] at hi
    refine ⟨?_, ?_, ?_⟩
    · have := congrArg (Option.map AnyError.get_type) hi
      simpa [Option.map_map, Function.comp_def, ErrorPtr.get_type] using this
    · have := congrArg (Option.map AnyError.get_message) hi
      simpa [Option.map_map, Function.comp_def, ErrorPtr.get_message] using this
    · have := congrArg (Option.map AnyError.get_level) hi
      simpa [Option.map_map, Function.comp_def, ErrorPtr.get_level] using this

/-- C2: in every state, `push_error(e)` makes `get_errors()` the previous
`get_errors()` with one entry appended at the end: the length grows by exactly
one, the earlier entries keep their index and are unchanged, and the new last
entry is a copy of `e` of the same kind, with the type, message and level of
`e`. -/
theorem C2_push_error_appends_one {E : Type} [inst : ErrorBase E] (e : E)
    (w : World DebugOut) :
    (push_error error_warn e w).holder.get_errors
        = w.holder.get_errors ++ [⟨w.next_id, ⟨E, inst, e⟩⟩]
    ∧ (push_error error_warn e w).holder.get_errors.length = w.holder.get_errors.length + 1
    ∧ (push_error error_warn e w).holder.get_errors.take w.holder.get_errors.length
        = w.holder.get_errors
    ∧ (∀ i : Nat, ((push_error error_warn e w).holder.get_errors.take
          w.holder.get_errors.length)[i]? = (w.holder.get_errors)[i]?)
    ∧ ∃ p : ErrorPtr, (push_error error_warn e w).holder.get_errors.getLast? = some p
        ∧ ((push_error error_warn e w).holder.get_errors)[w.holder.get_errors.length]? = some p
        ∧ p.obj = ⟨E, inst, e⟩
        ∧ p.get_type = ErrorBase.get_type e
        ∧ p.get_message = ErrorBase.get_message e
        ∧ p.get_level = ErrorBase.get_level e := by
  have h : (push_error error_warn e w).holder.get_errors
      = w.holder.get_errors ++ [⟨w.next_id, ⟨E, inst, e⟩⟩] :=
    push_any_errors ⟨E, inst, e⟩ w
  rw [h]
  refine ⟨rfl, by simp, by simp, fun i => by simp, ⟨w.next_id, ⟨E, inst, e⟩⟩, ?_⟩
  refine ⟨by simp, by simp, rfl, rfl, rfl, rfl⟩

/-- C3: in every state, empty or not, and for an error of any kind and level,
`has_errors()` is true right after `push_error(e)`. -/
theorem C3_has_errors_after_push {E : Type} [inst : ErrorBase E] (e : E)
    (w : World DebugOut) :
    (push_error error_warn e w).holder.has_errors = true := by
  have h : (push_error error_warn e w).holder.errors_
      = w.holder.errors_ ++ [⟨w.next_id, ⟨E, inst, e⟩⟩] :=
    push_any_errors ⟨E, inst, e⟩ w
  simp [ErrorHolder.has_errors, h]

/-- C4: in every state, after `clear_errors()` the query `has_errors()` is
false and `get_errors()` is the empty sequence. -/
theorem C4_clear_errors_empties {σ : Type u} (h : ErrorHolder) (w : World σ) :
    h.clear_errors.has_errors = false ∧ h.clear_errors.get_errors = []
    ∧ (clear_errors w).holder.has_errors = false
    ∧ (clear_errors w).holder.get_errors = [] := by
  simp [clear_errors, ErrorHolder.clear_errors, ErrorHolder.has_errors,
    ErrorHolder.get_errors]

/-- C5: in every state, `has_errors()` is true if and only if the sequence
`get_errors()` returns is not empty. -/
theorem C5_has_errors_iff_nonempty (h : ErrorHolder) :
    h.has_errors = true ↔ h.get_errors ≠ [] := by
  cases h with
  | mk l => cases l <;> simp [ErrorHolder.has_errors, ErrorHolder.get_errors]

/-! ## Invocations of the dispatcher -/

/-- C6: whatever the dispatcher `d` does, over every sequence of calls of
`push_error`, `has_errors`, `get_errors` and `clear_errors` the invocations of
`error_warn` are, in order, one for each `push_error` and nothing else. An
invocation is made inside `push_error` (the state `push_error` returns already
has it), after the copy has been appended: its argument is the pointer to the
copy allocated by this call, which is the last entry of `get_errors()` at that
moment, and not any object that existed before the call. The other three
methods do not invoke it. -/
theorem C6_error_warn_once_per_push {σ : Type u} (d : Dispatcher σ) :
    (∀ (ops : List Op) (w : World (σ × List DispatchRecord)),
      ∃ recs : List DispatchRecord,
        (run (traced d) ops w).env.2 = w.env.2 ++ recs
        ∧ recs.length = (pushed ops).length
        ∧ List.Forall₂ DispatchedFor recs (pushed ops))
    ∧ (∀ (e : AnyError) (w : World (σ × List DispatchRecord)),
        (Op.step (traced d) (Op.push_error e) w).env.2
          = w.env.2 ++ [⟨⟨w.next_id, e⟩, w.holder.get_errors ++ [⟨w.next_id, e⟩],
                          w.next_id + 1⟩])
    ∧ (∀ w : World (σ × List DispatchRecord),
        (Op.step (traced d) Op.has_errors w).env.2 = w.env.2
        ∧ (Op.step (traced d) Op.get_errors w).env.2 = w.env.2
        ∧ (Op.step (traced d) Op.clear_errors w).env.2 = w.env.2) := by
  refine ⟨fun ops w => ?_, fun e w => traced_push_log d e w, fun w => ⟨rfl, rfl, rfl⟩⟩
  obtain ⟨recs, hlog, hall⟩ := run_traced_log d ops w
  exact ⟨recs, hlog, hall.length_eq, hall⟩

/-! ## The default dispatcher -/

/-- C7, at the scenario input: pushing the error with type "DeviceError",
message "disk read failed" and level error onto a fresh holder emits one text
on the error channel, and that text ends in a newline character; no emission
has the text "Error: DeviceError: disk read failed". -/
theorem C7_counterexample_trailing_newline :
    (push_error error_warn deviceError (World.fresh 0 [])).env
        = [⟨debug_level.error, "hz", "Error: DeviceError: disk read failed\n"⟩]
    ∧ ∀ em ∈ (push_error error_warn deviceError (World.fresh 0 [])).env,
        em.text ≠ "Error: DeviceError: disk read failed" := by
  decide

/-- C7, amended: for an error whose level is not none, the default dispatcher
emits exactly the label of the level followed by "<type_name>: <message>" and
a newline character, on the channel of the level and with domain "hz"; the
label is empty for dump and info, "Warning: " for warn, "Error: " for error and
"Fatal: " for fatal. The same holds for the emission made by `push_error`. -/
theorem C7_emitted_text_with_newline {E : Type} [inst : ErrorBase E] (e : E)
    (id : Nat) (w : World DebugOut)
    (hlevel : ErrorBase.get_level e ≠ ErrorLevel.none) :
    ∃ c : debug_level, spec_channel (ErrorBase.get_level e) = some c
      ∧ (error_warn ⟨id, ⟨E, inst, e⟩⟩ w).env
          = w.env ++ [⟨c, "hz", spec_level_label (ErrorBase.get_level e)
              ++ (ErrorBase.get_type e ++ ": " ++ ErrorBase.get_message e ++ "\n")⟩]
      ∧ (push_error error_warn e w).env
          = w.env ++ [⟨c, "hz", spec_level_label (ErrorBase.get_level e)
              ++ (ErrorBase.get_type e ++ ": " ++ ErrorBase.get_message e ++ "\n")⟩] := by
  have key : ∀ (i : Nat) (v : World DebugOut), (error_warn ⟨i, ⟨E, inst, e⟩⟩ v).env
      = v.env ++ (match spec_channel (ErrorBase.get_level e) with
        | none => []
        | some c => [⟨c, "hz", spec_level_label (ErrorBase.get_level e)
            ++ (ErrorBase.get_type e ++ ": " ++ ErrorBase.get_message e ++ "\n")⟩]) :=
    fun i v => error_warn_env ⟨i, ⟨E, inst, e⟩⟩ v
  cases hc : spec_channel (ErrorBase.get_level e) with
  | none =>
    exfalso
    apply hlevel
    cases hl : ErrorBase.get_level e <;> simp [hl, spec_channel] at hc
    rfl
  | some c =>
    refine ⟨c, rfl, ?_, ?_⟩
    · rw [key id w, hc]
    · have hp : (push_error error_warn e w).env
          = (error_warn ⟨w.next_id, ⟨E, inst, e⟩⟩
              ⟨⟨w.holder.errors_ ++ [⟨w.next_id, ⟨E, inst, e⟩⟩]⟩, w.next_id + 1, w.env⟩).env := rfl
      rw [hp, key, hc]

/-- C7, amended, at the scenario input: the error "DeviceError" / "disk read
failed" of level error is emitted on the error channel as
"Error: DeviceError: disk read failed" followed by a newline. -/
theorem C7_emitted_text_with_newline_witness :
    deviceError.level ≠ ErrorLevel.none
    ∧ ∃ c : debug_level, spec_channel deviceError.level = some c
      ∧ (error_warn ⟨0, deviceError.any⟩ (World.fresh 0 [])).env
          = [] ++ [⟨c, "hz", spec_level_label deviceError.level
              ++ (deviceError.type_ ++ ": " ++ deviceError.message ++ "\n")⟩]
      ∧ (push_error error_warn deviceError (World.fresh 0 [])).env
          = [] ++ [⟨c, "hz", spec_level_label deviceError.level
              ++ (deviceError.type_ ++ ": " ++ deviceError.message ++ "\n")⟩] :=
  ⟨by decide, C7_emitted_text_with_newline deviceError 0 (World.fresh 0 []) (by decide)⟩

/-- C8: for an error whose level is none, with any type name and message,
`push_error` leaves the output trace as it was (the default dispatcher emits
nothing on any channel) and still appends the copy to the store. -/
theorem C8_level_none_emits_nothing {E : Type} [inst : ErrorBase E] (e : E)
    (w : World DebugOut) (hlevel : ErrorBase.get_level e = ErrorLevel.none) :
    (push_error error_warn e w).env = w.env
    ∧ (∀ id : Nat, error_warn ⟨id, ⟨E, inst, e⟩⟩ w = w)
    ∧ (push_error error_warn e w).holder.get_errors
        = w.holder.get_errors ++ [⟨w.next_id, ⟨E, inst, e⟩⟩] := by
  have key : ∀ (i : Nat) (v : World DebugOut), error_warn ⟨i, ⟨E, inst, e⟩⟩ v = v := by
    intro i v
    have hl : (⟨i, ⟨E, inst, e⟩⟩ : ErrorPtr).get_level = ErrorLevel.none := hlevel
    unfold error_warn
    simp [hl]
  refine ⟨?_, fun id => key id w, push_any_errors ⟨E, inst, e⟩ w⟩
  have hp : push_error error_warn e w
      = error_warn ⟨w.next_id, ⟨E, inst, e⟩⟩
          ⟨⟨w.holder.errors_ ++ [⟨w.next_id, ⟨E, inst, e⟩⟩]⟩, w.next_id + 1, w.env⟩ := rfl
  rw [hp, key]

/-- C8 at a concrete error of level none pushed onto a holder that already has
an entry and a non-empty output trace. -/
theorem C8_level_none_emits_nothing_witness :
    silentError.level = ErrorLevel.none
    ∧ ((push_error error_warn silentError
          (⟨⟨[⟨0, deviceError.any⟩]⟩, 1, [⟨debug_level.error, "hz", "x"⟩]⟩ : World DebugOut)).env
        = [⟨debug_level.error, "hz", "x"⟩]
      ∧ (∀ id : Nat, error_warn ⟨id, silentError.any⟩
          (⟨⟨[⟨0, deviceError.any⟩]⟩, 1, [⟨debug_level.error, "hz", "x"⟩]⟩ : World DebugOut)
            = ⟨⟨[⟨0, deviceError.any⟩]⟩, 1, [⟨debug_level.error, "hz", "x"⟩]⟩)
      ∧ (push_error error_warn silentError
          (⟨⟨[⟨0, deviceError.any⟩]⟩, 1, [⟨debug_level.error, "hz", "x"⟩]⟩ :
            World DebugOut)).holder.get_errors
        = [⟨0, deviceError.any⟩] ++ [⟨1, silentError.any⟩]) :=
  ⟨rfl, C8_level_none_emits_nothing silentError
    (⟨⟨[⟨0, deviceError.any⟩]⟩, 1, [⟨debug_level.error, "hz", "x"⟩]⟩ : World DebugOut) rfl⟩

/-- C9: for an error whose level is dump, info, warn, error or fatal, the
default dispatcher adds exactly one emission to the output trace; it is on the
channel matching the level (dump: verbose, info: informational, warn: warning,
error: error, fatal: fatal), so every other channel receives nothing; and its
text begins with "Warning: " for warn, "Error: " for error and "Fatal: " for
fatal. -/
theorem C9_one_emission_on_level_channel (p : ErrorPtr) (w : World DebugOut)
    (hlevel : p.get_level ≠ ErrorLevel.none) :
    ∃ (c : debug_level) (rest : String),
      spec_channel p.get_level = some c
      ∧ (error_warn p w).env = w.env ++ [⟨c, "hz", spec_level_label p.get_level ++ rest⟩]
      ∧ ((error_warn p w).env.drop w.env.length).length = 1
      ∧ ∀ c2 : debug_level,
          (((error_warn p w).env.drop w.env.length).filter
              (fun em => decide (em.channel = c2))).length
            = if c2 = c then 1 else 0 := by
  have key := error_warn_env p w
  cases hc : spec_channel p.get_level with
  | none =>
    exfalso
    apply hlevel
    cases hl : p.get_level <;> simp [hl, spec_channel] at hc
    rfl
  | some c =>
    rw [hc] at key
    refine ⟨c, p.get_type ++ ": " ++ p.get_message ++ "\n", rfl, key, ?_, ?_⟩
    · rw [key]
      simp
    · intro c2
      rw [key]
      by_cases h : c2 = c
      · simp [h]
      · have h2 : ¬ c = c2 := fun hcc => h hcc.symm
        simp [h, h2]

/-- C9 at a concrete error of level warn: one emission, on the warning
channel, beginning with "Warning: ". -/
theorem C9_one_emission_on_level_channel_witness :
    (⟨7, SimpleError.any ⟨"Parse", "bad token", ErrorLevel.warn⟩⟩ : ErrorPtr).get_level
        ≠ ErrorLevel.none
    ∧ ∃ (c : debug_level) (rest : String),
      spec_channel (⟨7, SimpleError.any ⟨"Parse", "bad token", ErrorLevel.warn⟩⟩ :
          ErrorPtr).get_level = some c
      ∧ (error_warn ⟨7, SimpleError.any ⟨"Parse", "bad token", ErrorLevel.warn⟩⟩
            (World.fresh 8 [])).env
          = [] ++ [⟨c, "hz", spec_level_label (⟨7, SimpleError.any
              ⟨"Parse", "bad token", ErrorLevel.warn⟩⟩ : ErrorPtr).get_level ++ rest⟩]
      ∧ ((error_warn ⟨7, SimpleError.any ⟨"Parse", "bad token", ErrorLevel.warn⟩⟩
            (World.fresh 8 [])).env.drop 0).length = 1
      ∧ ∀ c2 : debug_level,
          (((error_warn ⟨7, SimpleError.any ⟨"Parse", "bad token", ErrorLevel.warn⟩⟩
              (World.fresh 8 [])).env.drop 0).filter
              (fun em => decide (em.channel = c2))).length
            = if c2 = c then 1 else 0 :=
  ⟨by decide, C9_one_emission_on_level_channel
    ⟨7, SimpleError.any ⟨"Parse", "bad token", ErrorLevel.warn⟩⟩ (World.fresh 8 []) (by decide)⟩

/-! ## Reset -/

/-- C10: after any pushes `ps`, then `clear_errors()`, then any pushes `qs`,
`get_errors()` returns exactly the copies of `qs`, in order; `clear_errors()`
leaves the holder equal to a freshly constructed one in every state. In the
scenario (levels info, warn, fatal pushed, then `clear_errors()`, then one
error of level dump pushed) `get_errors()` has length 1 and holds only the
copy of the error pushed last. -/
theorem C10_clear_then_push_like_fresh (ps qs : List AnyError) (next_id : Nat)
    (out : DebugOut) :
    ((push_all error_warn qs (clear_errors
        (push_all error_warn ps (World.fresh next_id out)))).holder.get_errors).map
          ErrorPtr.obj = qs
    ∧ (∀ w : World DebugOut, (clear_errors w).holder = ErrorHolder.new
        ∧ clear_errors w = World.fresh w.next_id w.env)
    ∧ (push_any error_warn scenarioLast.any (clear_errors
        (push_all error_warn scenarioFirst (World.fresh 0 [])))).holder.get_errors.length = 1
    ∧ (push_any error_warn scenarioLast.any (clear_errors
        (push_all error_warn scenarioFirst (World.fresh 0 [])))).holder.get_errors
          = [⟨3, scenarioLast.any⟩] := by
  refine ⟨?_, fun w => ⟨rfl, rfl⟩, rfl, rfl⟩
  have h := push_all_errors_obj qs
    (clear_errors (push_all error_warn ps (World.fresh next_id out)))
  simpa [ErrorHolder.get_errors, clear_errors, ErrorHolder.clear_errors] using h

/-! ## Concrete kinds of stored entries -/

theorem push_all_errors_append (es : List AnyError) (w : World DebugOut) :
    ∃ tail : List ErrorPtr,
      (push_all error_warn es w).holder.errors_ = w.holder.errors_ ++ tail := by
  induction es generalizing w with
  | nil => exact ⟨[], by simp [push_all]⟩
  | cons e es ih =>
    obtain ⟨tail, ht⟩ := ih (push_any error_warn e w)
    refine ⟨⟨w.next_id, e⟩ :: tail, ?_⟩
    simp only [push_all, List.foldl_cons] at ht ⊢
    rw [ht, push_any_errors]
    simp

/-- C11, at a concrete input: two errors of kind `DerivedError` that differ in
their own member `code` (42 and 7), each pushed through a reference to the base
kind `SimpleError`, leave the same stored entry, an object of kind
`SimpleError` holding the base part only. No way of reading the stored entry
gives back the code of both. -/
theorem C11_counterexample_sliced_through_base :
    (push_error_via error_warn DerivedError.up derivedError42
        (World.fresh 0 [])).holder.get_errors
      = [⟨0, SimpleError.any ⟨"IoError", "short read", ErrorLevel.warn⟩⟩]
    ∧ (push_error_via error_warn DerivedError.up derivedError7
        (World.fresh 0 [])).holder.get_errors
      = [⟨0, SimpleError.any ⟨"IoError", "short read", ErrorLevel.warn⟩⟩]
    ∧ derivedError42.code ≠ derivedError7.code
    ∧ ∀ read : List ErrorPtr → Int,
        ¬ (read (push_error_via error_warn DerivedError.up derivedError42
              (World.fresh 0 [])).holder.get_errors = derivedError42.code
          ∧ read (push_error_via error_warn DerivedError.up derivedError7
              (World.fresh 0 [])).holder.get_errors = derivedError7.code) := by
  refine ⟨rfl, rfl, by decide, ?_⟩
  intro read h
  have h1 : (push_error_via error_warn DerivedError.up derivedError42
      (World.fresh 0 [])).holder.get_errors
        = (push_error_via error_warn DerivedError.up derivedError7
            (World.fresh 0 [])).holder.get_errors := rfl
  rw [h1] at h
  have h2 : derivedError42.code = derivedError7.code := h.1.symm.trans h.2
  exact absurd h2 (by decide)

/-- C11, amended: the entry `push_error` stores has the kind of the static type
at the call site. For a value `k` of kind `K` passed through a reference to a
kind `J` (which is `K` or a base of `K`), the stored entry is an object of kind
`J` holding the `J` part of `k`. So when `k` is passed as a `K` itself, the
stored entry is an object of kind `K` (it can be taken back as a `K`, not only
seen through `ErrorBase`) whose value, with all members of the kind, is that of
`k`, and `get_errors()` returns this same entry at the same index after any
later pushes of errors of other kinds. For instance a `CodedError` pushed as a
`CodedError` between two `SimpleError`s comes back as a `CodedError` with its
code, and a `DerivedError` pushed as a `DerivedError` comes back with its
code. -/
theorem C11_stored_entry_has_static_kind {K J : Type} [instK : ErrorBase K]
    [instJ : ErrorBase J] (up : Upcast K J) (k : K)
    (w : World DebugOut) (later : List AnyError) :
    (push_error_via error_warn up k w).holder.get_errors
        = w.holder.get_errors ++ [⟨w.next_id, ⟨J, instJ, up.base k⟩⟩]
    ∧ (∃ p : ErrorPtr,
        (push_error_via error_warn (Upcast.self K) k w).holder.get_errors.getLast? = some p
        ∧ ((push_all error_warn later
              (push_error_via error_warn (Upcast.self K) k w)).holder.get_errors)[
            w.holder.get_errors.length]? = some p
        ∧ p.obj = ⟨K, instK, k⟩
        ∧ (∃ hk : p.obj.E = K, cast hk p.obj.val = k))
    ∧ ((push_all error_warn [deviceError.any, codedError.any, silentError.any]
          (World.fresh 0 [])).holder.get_errors)[1]? = some ⟨1, codedError.any⟩
    ∧ (∃ hk : codedError.any.E = CodedError, (cast hk codedError.any.val).code = 42)
    ∧ (push_error_via error_warn (Upcast.self DerivedError) derivedError42
          (World.fresh 0 [])).holder.get_errors
        = [⟨0, ⟨DerivedError, instErrorBaseDerivedError, derivedError42⟩⟩] := by
  have h1 : (push_error_via error_warn (Upcast.self K) k w).holder.errors_
      = w.holder.errors_ ++ [⟨w.next_id, ⟨K, instK, k⟩⟩] :=
    push_any_errors ⟨K, instK, k⟩ w
  obtain ⟨tail, ht⟩ := push_all_errors_append later
    (push_error_via error_warn (Upcast.self K) k w)
  refine ⟨push_any_errors ⟨J, instJ, up.base k⟩ w,
    ⟨⟨w.next_id, ⟨K, instK, k⟩⟩, ?_, ?_, rfl, ⟨rfl, rfl⟩⟩, rfl, ⟨rfl, rfl⟩, rfl⟩
  · simp [ErrorHolder.get_errors, h1]
  · simp only [ErrorHolder.get_errors, ht, h1, List.append_assoc, List.singleton_append]
    rw [List.getElem?_append_right (le_refl _)]
    simp

/-! ## Substituting the dispatcher -/

theorem push_any_errors_of_preserving {σ : Type u} (d : Dispatcher σ)
    (hd : ∀ (p : ErrorPtr) (w : World σ), (d p w).holder = w.holder)
    (e : AnyError) (w : World σ) :
    (push_any d e w).holder.errors_ = w.holder.errors_ ++ [⟨w.next_id, e⟩] := by
  simp [push_any, push_error, make_shared, hd]

theorem run_store_of_preserving {σ τ : Type u} (d1 : Dispatcher σ) (d2 : Dispatcher τ)
    (h1 : ∀ (p : ErrorPtr) (w : World σ), (d1 p w).holder = w.holder)
    (h2 : ∀ (p : ErrorPtr) (w : World τ), (d2 p w).holder = w.holder)
    (ops : List Op) (w1 : World σ) (w2 : World τ)
    (h0 : w1.holder.errors_.map ErrorPtr.obj = w2.holder.errors_.map ErrorPtr.obj) :
    (run d1 ops w1).holder.errors_.map ErrorPtr.obj
      = (run d2 ops w2).holder.errors_.map ErrorPtr.obj := by
  induction ops generalizing w1 w2 with
  | nil => simpa [run] using h0
  | cons op ops ih =>
    simp only [run, List.foldl_cons]
    apply ih
    cases op with
    | push_error e =>
      simp [Op.step, push_any_errors_of_preserving d1 h1, push_any_errors_of_preserving d2 h2, h0]
    | has_errors => simpa [Op.step] using h0
    | get_errors => simpa [Op.step] using h0
    | clear_errors => simp [Op.step, clear_errors, ErrorHolder.clear_errors]

/-- C13, at a concrete override: with `error_warn` replaced by an override whose
body is `clear_errors();`, one `push_error` on a fresh holder leaves
`get_errors()` empty and `has_errors()` false, while with the default
dispatcher the same push leaves one entry and `has_errors()` true. -/
theorem C13_counterexample_clearing_override :
    (run clearing_dispatcher [Op.push_error deviceError.any]
        (World.fresh 0 ())).holder.get_errors.length = 0
    ∧ (run clearing_dispatcher [Op.push_error deviceError.any]
        (World.fresh 0 ())).holder.has_errors = false
    ∧ (run error_warn [Op.push_error deviceError.any]
        (World.fresh 0 [])).holder.get_errors.length = 1
    ∧ (run error_warn [Op.push_error deviceError.any]
        (World.fresh 0 [])).holder.has_errors = true := by
  refine ⟨rfl, rfl, rfl, rfl⟩

/-- C13, amended: for every replacement of `error_warn` that leaves the holder
as it finds it (it does not itself push or clear), and every sequence of calls
started from stores holding the same errors, `get_errors()` holds the same
errors in the same order and `has_errors()` has the same value as with the
default dispatcher. -/
theorem C13_store_independent_of_dispatcher {σ : Type} (d : Dispatcher σ)
    (hd : ∀ (p : ErrorPtr) (w : World σ), (d p w).holder = w.holder)
    (ops : List Op) (w1 : World σ) (w2 : World DebugOut)
    (h0 : w1.holder.get_errors.map ErrorPtr.obj = w2.holder.get_errors.map ErrorPtr.obj) :
    (run d ops w1).holder.get_errors.map ErrorPtr.obj
        = (run error_warn ops w2).holder.get_errors.map ErrorPtr.obj
    ∧ (run d ops w1).holder.has_errors = (run error_warn ops w2).holder.has_errors := by
  have h := run_store_of_preserving d error_warn hd error_warn_holder ops w1 w2 h0
  refine ⟨h, ?_⟩
  have hl := congrArg List.length h
  simp only [List.length_map] at hl
  simp only [ErrorHolder.has_errors, List.isEmpty_eq_true, Bool.not_eq_eq_eq_not,
    Bool.not_not]
  cases h1 : (run d ops w1).holder.errors_ <;>
    cases h2 : (run error_warn ops w2).holder.errors_ <;> simp [h1, h2] at hl ⊢

/-- C13, amended, at a concrete override that only counts its invocations, over
a sequence with pushes, a query and a reset. -/
theorem C13_store_independent_of_dispatcher_witness :
    (∀ (p : ErrorPtr) (w : World Nat), (counting_dispatcher p w).holder = w.holder)
    ∧ ((World.fresh 5 0 : World Nat).holder.get_errors.map ErrorPtr.obj
        = (World.fresh 0 [] : World DebugOut).holder.get_errors.map ErrorPtr.obj)
    ∧ ((run counting_dispatcher
          [Op.push_error deviceError.any, Op.has_errors, Op.clear_errors,
            Op.push_error codedError.any] (World.fresh 5 0)).holder.get_errors.map ErrorPtr.obj
        = (run error_warn
          [Op.push_error deviceError.any, Op.has_errors, Op.clear_errors,
            Op.push_error codedError.any] (World.fresh 0 [])).holder.get_errors.map ErrorPtr.obj
      ∧ (run counting_dispatcher
          [Op.push_error deviceError.any, Op.has_errors, Op.clear_errors,
            Op.push_error codedError.any] (World.fresh 5 0)).holder.has_errors
        = (run error_warn
          [Op.push_error deviceError.any, Op.has_errors, Op.clear_errors,
            Op.push_error codedError.any] (World.fresh 0 [])).holder.has_errors) :=
  ⟨fun _ _ => rfl, rfl,
    C13_store_independent_of_dispatcher counting_dispatcher (fun _ _ => rfl)
      [Op.push_error deviceError.any, Op.has_errors, Op.clear_errors,
        Op.push_error codedError.any] (World.fresh 5 0) (World.fresh 0 []) rfl⟩

/-! ## Normal completion, and what the default dispatcher depends on -/

/-- C18: what the default dispatcher emits depends on the error alone. For any
two holder states and any two errors, of whatever kinds, that agree on type
name, message and level, `error_warn` adds the same emissions (same channel,
same domain, same text; at most one) to the two output traces, and it leaves
both stored sequences unchanged. -/
theorem C18_error_warn_depends_on_error_only (p1 p2 : ErrorPtr)
    (w1 w2 : World DebugOut)
    (htype : p1.get_type = p2.get_type) (hmsg : p1.get_message = p2.get_message)
    (hlevel : p1.get_level = p2.get_level) :
    ∃ ems : List DebugEmission,
      (error_warn p1 w1).env = w1.env ++ ems
      ∧ (error_warn p2 w2).env = w2.env ++ ems
      ∧ ems.length ≤ 1
      ∧ (error_warn p1 w1).holder.get_errors = w1.holder.get_errors
      ∧ (error_warn p2 w2).holder.get_errors = w2.holder.get_errors := by
  refine ⟨_, error_warn_env p1 w1, ?_, ?_, ?_, ?_⟩
  · rw [error_warn_env p2 w2, htype, hmsg, hlevel]
  · cases spec_channel p1.get_level <;> simp
  · rw [error_warn_holder]
  · rw [error_warn_holder]

/-- C18 at two errors of different kinds with the same type name, message and
level, dispatched in two different states. -/
theorem C18_error_warn_depends_on_error_only_witness :
    (⟨0, SimpleError.any ⟨"IoError", "short read", ErrorLevel.warn⟩⟩ : ErrorPtr).get_type
        = (⟨9, codedError.any⟩ : ErrorPtr).get_type
    ∧ (⟨0, SimpleError.any ⟨"IoError", "short read", ErrorLevel.warn⟩⟩ : ErrorPtr).get_message
        = (⟨9, codedError.any⟩ : ErrorPtr).get_message
    ∧ (⟨0, SimpleError.any ⟨"IoError", "short read", ErrorLevel.warn⟩⟩ : ErrorPtr).get_level
        = (⟨9, codedError.any⟩ : ErrorPtr).get_level
    ∧ ∃ ems : List DebugEmission,
      (error_warn ⟨0, SimpleError.any ⟨"IoError", "short read", ErrorLevel.warn⟩⟩
          (World.fresh 1 [])).env = [] ++ ems
      ∧ (error_warn ⟨9, codedError.any⟩
          (⟨⟨[⟨3, deviceError.any⟩]⟩, 10, [⟨debug_level.info, "hz", "x"⟩]⟩ :
            World DebugOut)).env = [⟨debug_level.info, "hz", "x"⟩] ++ ems
      ∧ ems.length ≤ 1
      ∧ (error_warn ⟨0, SimpleError.any ⟨"IoError", "short read", ErrorLevel.warn⟩⟩
          (World.fresh 1 [])).holder.get_errors = []
      ∧ (error_warn ⟨9, codedError.any⟩
          (⟨⟨[⟨3, deviceError.any⟩]⟩, 10, [⟨debug_level.info, "hz", "x"⟩]⟩ :
            World DebugOut)).holder.get_errors = [⟨3, deviceError.any⟩] :=
  ⟨rfl, rfl, rfl, C18_error_warn_depends_on_error_only
    ⟨0, SimpleError.any ⟨"IoError", "short read", ErrorLevel.warn⟩⟩ ⟨9, codedError.any⟩
    (World.fresh 1 [])
    (⟨⟨[⟨3, deviceError.any⟩]⟩, 10, [⟨debug_level.info, "hz", "x"⟩]⟩ : World DebugOut)
    rfl rfl rfl⟩

/-! ## The version check of applib -/

/-- C17: `APP_GTKMM_CHECK_VERSION(major, minor, micro)` is true exactly when
the Gtkmm version triple is greater than or equal to `(major, minor, micro)` in
the lexicographic order, for all integers; it is true for the current version
itself; and when it holds for a triple it holds for every lexicographically
smaller or equal triple. -/
theorem C17_check_version_is_lex_ge (M m u major minor micro : Int) :
    (APP_GTKMM_CHECK_VERSION M m u major minor micro = true
        ↔ toLex (major, toLex (minor, micro)) ≤ toLex (M, toLex (m, u)))
    ∧ APP_GTKMM_CHECK_VERSION M m u M m u = true
    ∧ (∀ a b c : Int, toLex (a, toLex (b, c)) ≤ toLex (major, toLex (minor, micro)) →
        APP_GTKMM_CHECK_VERSION M m u major minor micro = true →
        APP_GTKMM_CHECK_VERSION M m u a b c = true) := by
  have key : ∀ x y z : Int, APP_GTKMM_CHECK_VERSION M m u x y z = true
      ↔ toLex (x, toLex (y, z)) ≤ toLex (M, toLex (m, u)) := by
    intro x y z
    rw [Prod.Lex.le_iff, Prod.Lex.le_iff]
    simp only [APP_GTKMM_CHECK_VERSION, Bool.or_eq_true, Bool.and_eq_true, decide_eq_true_eq]
    constructor
    · rintro (h | ⟨h1, h | ⟨h2, h3⟩⟩)
      · exact Or.inl h
      · exact Or.inr ⟨h1.symm, Or.inl h⟩
      · exact Or.inr ⟨h1.symm, Or.inr ⟨h2.symm, h3⟩⟩
    · rintro (h | ⟨h1, h | ⟨h2, h3⟩⟩)
      · exact Or.inl h
      · exact Or.inr ⟨h1.symm, Or.inl h⟩
      · exact Or.inr ⟨h1.symm, Or.inr ⟨h2.symm, h3⟩⟩
  refine ⟨key major minor micro, (key M m u).2 (le_refl _), ?_⟩
  intro a b c hle hc
  exact (key a b c).2 (le_trans hle ((key major minor micro).1 hc))

/-- C17 at gtkmm 3.24.5: the check holds for 3.22.0, hence for the smaller
2.99.99, and it fails for 3.24.6. -/
theorem C17_check_version_is_lex_ge_witness :
    APP_GTKMM_CHECK_VERSION 3 24 5 3 22 0 = true
    ∧ APP_GTKMM_CHECK_VERSION 3 24 5 2 99 99 = true
    ∧ APP_GTKMM_CHECK_VERSION 3 24 5 3 24 6 = false :=
  ⟨by decide,
    (C17_check_version_is_lex_ge 3 24 5 3 22 0).2.2 2 99 99
      ((Prod.Lex.le_iff _ _).2 (Or.inl (by decide))) (by decide),
    by decide⟩

/-! ## Handles obtained from get_errors -/

theorem owners_cons (i : Nat) (p : ErrorPtr) (l : List ErrorPtr) :
    owners i (p :: l) = owners i l + (if p.id = i then 1 else 0) := by
  simp [owners, List.count_cons]

theorem owners_append (i : Nat) (l1 l2 : List ErrorPtr) :
    owners i (l1 ++ l2) = owners i l1 + owners i l2 := by
  simp [owners, List.count_append]

theorem owners_pos_of_mem (p : ErrorPtr) (l : List ErrorPtr) (h : p ∈ l) :
    1 ≤ owners p.id l := by
  unfold owners
  exact List.count_pos_iff.2 (List.mem_map_of_mem ErrorPtr.id h)

theorem rc_push_heap (e : AnyError) (rw : RcWorld) (i : Nat) :
    (Mutator.step (Mutator.push_error e) rw).heap i
      = if i = rw.base.next_id then some ⟨e, 1⟩ else rw.heap i := by
  simp only [Mutator.step, rc_push_error, make_shared, Heap.release, Heap.retain, Heap.alloc]
  by_cases h : i = rw.base.next_id <;> simp [h]

theorem rc_push_base (e : AnyError) (rw : RcWorld) :
    (Mutator.step (Mutator.push_error e) rw).base = push_any error_warn e rw.base := rfl

theorem retain_list (l : List ErrorPtr) (heap : Heap) (i : Nat) :
    (l.foldl (fun h p => h.retain p.id) heap) i
      = (heap i).map (fun c => ⟨c.obj, c.use_count + owners i l⟩) := by
  induction l generalizing heap with
  | nil => cases h : heap i <;> simp [owners, h]
  | cons p l ih =>
    rw [List.foldl_cons, ih, owners_cons]
    by_cases hp : p.id = i
    · cases h : heap i <;> simp [Heap.retain, hp, h]
      omega
    · have hp2 : ¬ i = p.id := fun hh => hp hh.symm
      cases h : heap i <;> simp [Heap.retain, hp, hp2, h]

theorem release_list (l : List ErrorPtr) (heap : Heap) (i : Nat) (c : Cell) (k : Nat)
    (hc : heap i = some c) (hk : 1 ≤ k) (hcount : owners i l + k ≤ c.use_count) :
    ∃ c2 : Cell, (l.foldl (fun h p => h.release p.id) heap) i = some c2
      ∧ c2.obj = c.obj ∧ k ≤ c2.use_count := by
  induction l generalizing heap c with
  | nil => exact ⟨c, by simpa using hc, rfl, by simpa [owners] using hcount⟩
  | cons p l ih =>
    rw [owners_cons] at hcount
    rw [List.foldl_cons]
    by_cases hp : p.id = i
    · have h1 : (heap.release p.id) i = some ⟨c.obj, c.use_count - 1⟩ := by
        have h2 : ¬ c.use_count ≤ 1 := by
          simp only [hp, if_true] at hcount
          omega
        simp [Heap.release, hp, hc, h2]
      obtain ⟨c2, hc2, hobj, hle⟩ := ih (heap.release p.id) ⟨c.obj, c.use_count - 1⟩ h1 (by
        simp only [hp, if_true] at hcount
        simp only
        omega)
      exact ⟨c2, hc2, hobj, hle⟩
    · have hp2 : ¬ i = p.id := fun hh => hp hh.symm
      have h1 : (heap.release p.id) i = some c := by
        simp [Heap.release, hp2, hc]
      exact ih (heap.release p.id) c h1 (by
        simp only [hp, if_false] at hcount
        omega)

theorem owners_eq_zero (i : Nat) (l : List ErrorPtr) (h : ∀ q ∈ l, q.id ≠ i) :
    owners i l = 0 := by
  unfold owners
  rw [List.count_eq_zero]
  intro hmem
  obtain ⟨q, hq, hid⟩ := List.mem_map.1 hmem
  exact h q hq hid

theorem accounted_fresh (next_id : Nat) (out : DebugOut) :
    Accounted [] (RcWorld.fresh next_id out) := by
  intro p hp
  simp [RcWorld.fresh, World.fresh, ErrorHolder.new] at hp

theorem accounted_push (held : List ErrorPtr) (e : AnyError) (rw : RcWorld)
    (h : Accounted held rw) :
    Accounted held (Mutator.step (Mutator.push_error e) rw) := by
  intro p hp
  rw [rc_push_base, push_any_errors, push_any_next_id] at *
  rw [rc_push_heap]
  have hold : ∀ q ∈ rw.base.holder.errors_ ++ held, q.id ≠ rw.base.next_id :=
    fun q hq => Nat.ne_of_lt (h q hq).1
  have hcases : p ∈ rw.base.holder.errors_ ++ held ∨ p = ⟨rw.base.next_id, e⟩ := by
    simp only [List.mem_append, List.mem_singleton] at hp ⊢
    tauto
  rcases hcases with hin | hnew
  · obtain ⟨hlt, c, hc, hobj, hle⟩ := h p hin
    have hne : p.id ≠ rw.base.next_id := Nat.ne_of_lt hlt
    have hne2 : ¬ rw.base.next_id = p.id := fun hh => hne hh.symm
    refine ⟨Nat.lt_succ_of_lt hlt, c, by simp [hne, hc], hobj, ?_⟩
    rw [owners_append, owners_cons]
    simp [owners, hne2]
    simpa [owners] using hle
  · subst hnew
    refine ⟨Nat.lt_succ_self _, ⟨e, 1⟩, by simp, rfl, ?_⟩
    have h0 : owners rw.base.next_id (rw.base.holder.errors_ ++ held) = 0 :=
      owners_eq_zero _ _ hold
    rw [owners_append] at h0
    rw [owners_append, owners_cons]
    simp [owners] at h0 ⊢
    omega

theorem accounted_clear (held : List ErrorPtr) (rw : RcWorld) (h : Accounted held rw) :
    Accounted held (Mutator.step Mutator.clear_errors rw) := by
  intro p hp
  have hp2 : p ∈ held := by
    simpa [Mutator.step, rc_clear_errors, clear_errors, ErrorHolder.clear_errors] using hp
  obtain ⟨hlt, c, hc, hobj, hle⟩ := h p (List.mem_append_right _ hp2)
  obtain ⟨c2, hc2, hobj2, hle2⟩ := release_list rw.base.holder.errors_ rw.heap p.id c
    (owners p.id held) hc (owners_pos_of_mem p held hp2) hle
  refine ⟨hlt, c2, hc2, hobj2.trans hobj, ?_⟩
  simpa [Mutator.step, rc_clear_errors, clear_errors, ErrorHolder.clear_errors, owners]
    using hle2

theorem accounted_run (held : List ErrorPtr) (ms : List Mutator) (rw : RcWorld)
    (h : Accounted held rw) : Accounted held (rc_run ms rw) := by
  induction ms generalizing rw with
  | nil => simpa [rc_run] using h
  | cons m ms ih =>
    simp only [rc_run, List.foldl_cons]
    apply ih
    cases m with
    | push_error e => exact accounted_push held e rw h
    | clear_errors => exact accounted_clear held rw h

theorem accounted_snapshot (rw : RcWorld) (h : Accounted [] rw) :
    Accounted (rc_get_errors rw).1 (rc_get_errors rw).2 := by
  intro p hp
  have hp2 : p ∈ rw.base.holder.errors_ := by
    simpa [rc_get_errors] using hp
  obtain ⟨hlt, c, hc, hobj, hle⟩ := h p (List.mem_append_left _ hp2)
  refine ⟨hlt, ⟨c.obj, c.use_count + owners p.id rw.base.holder.errors_⟩, ?_, hobj, ?_⟩
  · simp [rc_get_errors, retain_list, hc]
  · simp only [rc_get_errors]
    simp only [owners, List.map_nil, List.count_nil, Nat.add_zero] at hle ⊢
    omega

theorem deref_of_accounted (held : List ErrorPtr) (rw : RcWorld) (h : Accounted held rw)
    (p : ErrorPtr) (hp : p ∈ held) : rw.heap.deref p = some p.obj := by
  obtain ⟨_, c, hc, hobj, _⟩ := h p (List.mem_append_right _ hp)
  simp [Heap.deref, hc, hobj]

theorem rc_run_base (ms : List Mutator) (rw : RcWorld) :
    (rc_run ms rw).base = run error_warn (ms.map Mutator.toOp) rw.base := by
  induction ms generalizing rw with
  | nil => rfl
  | cons m ms ih =>
    simp only [rc_run, run, List.map_cons, List.foldl_cons] at ih ⊢
    rw [ih]
    cases m <;> rfl

/-- C12: a list obtained from `get_errors()` stays valid. In every state
reached from a fresh holder, let `L` be the list `get_errors()` returns (the
stored sequence at that moment); after any later sequence of `clear_errors()`
and `push_error()` calls, every handle in `L` still points to an existing
object with the contents it had, so `L` has the same entries, at the same
positions, with the same type, message and level. The objects are kept alive
by the handles in `L`: without such a list, `clear_errors()` destroys the
object of a pushed error. -/
theorem C12_handles_survive_clear_and_push (next_id : Nat) (out : DebugOut)
    (before after : List Mutator) :
    (rc_get_errors (rc_run before (RcWorld.fresh next_id out))).1
        = (run error_warn (before.map Mutator.toOp)
            (World.fresh next_id out)).holder.get_errors
    ∧ ((rc_get_errors (rc_run before (RcWorld.fresh next_id out))).1).map
          (rc_run after (rc_get_errors (rc_run before (RcWorld.fresh next_id out))).2).heap.deref
        = ((rc_get_errors (rc_run before (RcWorld.fresh next_id out))).1).map
            (fun p => some p.obj)
    ∧ ((rc_get_errors (rc_run before (RcWorld.fresh next_id out))).1).map
          (fun p => ((rc_run after (rc_get_errors (rc_run before
            (RcWorld.fresh next_id out))).2).heap.deref p).map AnyError.get_type)
        = ((rc_get_errors (rc_run before (RcWorld.fresh next_id out))).1).map
            (fun p => some p.get_type)
    ∧ ((rc_get_errors (rc_run before (RcWorld.fresh next_id out))).1).map
          (fun p => ((rc_run after (rc_get_errors (rc_run before
            (RcWorld.fresh next_id out))).2).heap.deref p).map AnyError.get_message)
        = ((rc_get_errors (rc_run before (RcWorld.fresh next_id out))).1).map
            (fun p => some p.get_message)
    ∧ ((rc_get_errors (rc_run before (RcWorld.fresh next_id out))).1).map
          (fun p => ((rc_run after (rc_get_errors (rc_run before
            (RcWorld.fresh next_id out))).2).heap.deref p).map AnyError.get_level)
        = ((rc_get_errors (rc_run before (RcWorld.fresh next_id out))).1).map
            (fun p => some p.get_level)
    ∧ ((rc_run [Mutator.push_error deviceError.any, Mutator.clear_errors]
          (RcWorld.fresh 0 [])).heap 0).isNone = true
    ∧ ((rc_run [Mutator.clear_errors]
          (rc_get_errors (rc_run [Mutator.push_error deviceError.any]
            (RcWorld.fresh 0 []))).2).heap 0).isSome = true := by
  have hacc : Accounted (rc_get_errors (rc_run before (RcWorld.fresh next_id out))).1
      (rc_run after (rc_get_errors (rc_run before (RcWorld.fresh next_id out))).2) :=
    accounted_run _ after _
      (accounted_snapshot _ (accounted_run [] before _ (accounted_fresh next_id out)))
  have hderef := deref_of_accounted _ _ hacc
  refine ⟨?_, ?_, ?_, ?_, ?_, rfl, rfl⟩
  · have hb := rc_run_base before (RcWorld.fresh next_id out)
    simp only [rc_get_errors, ErrorHolder.get_errors, hb]
    rfl
  · exact List.map_congr_left hderef
  · exact List.map_congr_left (fun p hp => by rw [hderef p hp]; rfl)
  · exact List.map_congr_left (fun p hp => by rw [hderef p hp]; rfl)
  · exact List.map_congr_left (fun p hp => by rw [hderef p hp]; rfl)

/-! ## The const queries -/

/-- C15: `has_errors()` and `get_errors()` are pure queries. With any
dispatcher and in every state, any number of calls of them, in any order,
leaves the world (and with it the stored sequence) as it was; `get_errors()`
and `has_errors()` called after them return what they returned before; and
with ownership accounted, `get_errors()` leaves the holder unchanged and a
second call returns the same handles in the same order. -/
theorem C15_queries_are_pure {σ : Type u} (d : Dispatcher σ) (qs : List Query)
    (w : World σ) (rw : RcWorld) :
    run d (qs.map Query.toOp) w = w
    ∧ (run d (qs.map Query.toOp) w).holder.get_errors = w.holder.get_errors
    ∧ (Op.call d Op.has_errors w).1 = w
    ∧ (Op.call d Op.get_errors w).1 = w
    ∧ (Op.call d Op.get_errors (run d (qs.map Query.toOp) w)).2
        = (Op.call d Op.get_errors w).2
    ∧ (Op.call d Op.has_errors (run d (qs.map Query.toOp) w)).2
        = (Op.call d Op.has_errors w).2
    ∧ (Op.call d Op.get_errors (Op.call d Op.get_errors w).1).2 = Ret.list w.holder.errors_
    ∧ (rc_get_errors rw).2.base = rw.base
    ∧ (rc_get_errors (rc_get_errors rw).2).1 = (rc_get_errors rw).1 := by
  have h : run d (qs.map Query.toOp) w = w := by
    induction qs with
    | nil => rfl
    | cons q qs ih =>
      cases q <;> simpa [run, Query.toOp, Op.step] using ih
  rw [h]
  exact ⟨rfl, rfl, rfl, rfl, rfl, rfl, rfl, rfl, rfl⟩

end hz
